import Mathlib

/-!
Shallow embedding of `src/server.py` (a minimal SPA development HTTP server).

Request paths are modelled as `List Char` (the raw path component as received
on the wire).  Filesystem locations are modelled as lists of path segments
(`List (List Char)`): the server's root/working directory is such a segment
list, and `os.path.abspath` of a relative path is modelled by appending the
relative path's slash-separated segments to the root and normalising them
POSIX-style (empty and `.` segments vanish, `..` pops one segment, popping
nothing at the absolute root) — exactly what `posixpath.normpath` does on an
absolute path.

The filesystem itself is abstract: a structure giving, for every resolved
segment list, whether an entry exists, whether it is a directory, and the
file's bytes.  The static file responder (`SimpleHTTPRequestHandler.do_GET`,
an external collaborator from the router's point of view) is modelled for
the call sites the router can reach: it re-translates `self.path` via the
overridden `translate_path`, sends a 301 redirect for a directory (the
router only hands it non-directory paths or the literal `/index.html`,
which never ends in `/`, so the index-page/listing branch of the Python
class is unreachable), 200 with the file bytes for an existing file, and
404 otherwise.
-/

/-- A single path segment, e.g. `"index.html"` as a character list. -/
abbrev Seg : Type := List Char

/-- A resolved filesystem location: the list of path segments from `/`. -/
abbrev FsPath : Type := List Seg

/-- Abstract snapshot of the filesystem at the moment a request is handled. -/
structure FS where
  pathExists : FsPath → Bool
  isDir : FsPath → Bool
  contents : FsPath → List Nat

/-- The responses the embedded server can produce: 200 with file bytes,
a 301 directory redirect, or a 404 error page. -/
inductive Response : Type where
  | ok (body : List Nat)
  | redirect
  | notFound
deriving DecidableEq

/-- HTTP status code of a response. -/
def Response.status : Response → Nat
  | .ok _ => 200
  | .redirect => 301
  | .notFound => 404

/-- Python `s.split(c, 1)[0]`: everything strictly before the first
occurrence of `c` (the whole string when `c` does not occur). -/
def split1 (c : Char) : List Char → List Char
  | [] => []
  | a :: as => if a = c then [] else a :: split1 c as

/-- Python `s.lstrip("/")`: drop every leading `/` character. -/
def lstripSlash : List Char → List Char
  | [] => []
  | a :: as => if a = '/' then lstripSlash as else a :: as

/-- Split a character list on a separator character (Python `s.split(c)`). -/
def splitChar (c : Char) : List Char → List Seg
  | [] => [[]]
  | a :: as =>
    match splitChar c as with
    | [] => [[]]
    | g :: gs => if a = c then [] :: g :: gs else (a :: g) :: gs

/-- POSIX `normpath` segment processing for an absolute path, folded over
an accumulator: `""` and `"."` segments are skipped, `".."` removes the
last accumulated segment (removing nothing at the root), and any other
segment is appended. -/
def resolveSegs : FsPath → List Seg → FsPath
  | acc, [] => acc
  | acc, s :: rest =>
    if s = ([] : Seg) then resolveSegs acc rest
    else if s = ['.'] then resolveSegs acc rest
    else if s = ['.', '.'] then resolveSegs acc.dropLast rest
    else resolveSegs (acc ++ [s]) rest

/-- `SPARequestHandler.translate_path` (src/server.py lines 16–21):
strip from the first `?`, then from the first `#`, lstrip `/`, default the
empty result to `index.html`, and resolve against the server's
root/working directory (`os.path.abspath`). -/
def translate_path (root : FsPath) (path : List Char) : FsPath :=
  let p := split1 '#' (split1 '?' path)
  let rel := lstripSlash p
  let rel := if rel = ([] : List Char) then "index.html".toList else rel
  resolveSegs root (splitChar '/' rel)

/-- `big.startsWith front` on lists (Python `str.startswith`, and also used
at segment level to express containment under the root). -/
def startsWithL {α : Type} [DecidableEq α] : List α → List α → Bool
  | _, [] => true
  | [], _ :: _ => false
  | a :: as, b :: bs => decide (a = b) && startsWithL as bs

/-- The static file responder (`SimpleHTTPRequestHandler.do_GET` with the
overridden `translate_path`), modelled at the router's reachable call
sites: directory → 301 redirect, existing file → 200 with its bytes,
otherwise → 404. -/
def staticResponder (fs : FS) (root : FsPath) (path : List Char) : Response :=
  let resolved := translate_path root path
  if fs.isDir resolved then Response.redirect
  else if fs.pathExists resolved then Response.ok (fs.contents resolved)
  else Response.notFound

/-- `SPARequestHandler.do_GET` (src/server.py lines 23–33): serve the file
when the resolved path exists and is not a directory; otherwise 404 when
the raw request path starts with `/assets/` or equals `/favicon.ico`;
otherwise rewrite the path to `/index.html` and delegate. -/
def do_GET (fs : FS) (root : FsPath) (reqPath : List Char) : Response :=
  let file_path := translate_path root reqPath
  if fs.pathExists file_path && !fs.isDir file_path then
    staticResponder fs root reqPath
  else if startsWithL reqPath "/assets/".toList || decide (reqPath = "/favicon.ico".toList) then
    Response.notFound
  else
    staticResponder fs root "/index.html".toList

/-- One request handled on a persistent connection, with the handler's one
piece of mutable per-connection state — the `self.path` field that line 32
of the source assigns — threaded explicitly.  `parse_request` overwrites
`self.path` with the incoming request line before `do_GET` runs, which is
why the incoming state is discarded; the returned state is the value of
`self.path` after the handler finishes. -/
def handleOne (fs : FS) (root : FsPath) (_st : List Char) (req : List Char) :
    Response × List Char :=
  let path0 := req
  let file_path := translate_path root path0
  if fs.pathExists file_path && !fs.isDir file_path then
    (staticResponder fs root path0, path0)
  else if startsWithL path0 "/assets/".toList || decide (path0 = "/favicon.ico".toList) then
    (Response.notFound, path0)
  else
    (staticResponder fs root "/index.html".toList, "/index.html".toList)

/-- Transcription of the spec's normalization contract (§4.1 Steps 1–3,
and the wording of claim C4): take everything strictly before the first
`?`, then everything strictly before the first `#` of the query-stripped
string, drop leading `/` characters, default the empty result to
`index.html`, and resolve against the root.  To be compared with
`translate_path`, which transliterates the source. -/
def translate_path_spec (root : FsPath) (path : List Char) : FsPath :=
  let afterQ := path.takeWhile (fun a => decide (a ≠ '?'))
  let afterF := afterQ.takeWhile (fun a => decide (a ≠ '#'))
  let rel := afterF.dropWhile (fun a => decide (a = '/'))
  let rel := if rel = ([] : List Char) then "index.html".toList else rel
  resolveSegs root (splitChar '/' rel)

/-- Python `split(c, 1)[0]` is the longest front free of `c`. -/
theorem split1_eq_takeWhile (c : Char) : ∀ s : List Char,
    split1 c s = s.takeWhile (fun a => decide (a ≠ c))
  | [] => rfl
  | a :: as => by
    by_cases h : a = c
    · simp [split1, List.takeWhile, h]
    · simp [split1, List.takeWhile, h, split1_eq_takeWhile c as]

/-- Python `lstrip("/")` drops the longest front of `/` characters. -/
theorem lstripSlash_eq_dropWhile : ∀ s : List Char,
    lstripSlash s = s.dropWhile (fun a => decide (a = '/'))
  | [] => rfl
  | a :: as => by
    by_cases h : a = '/'
    · simp [lstripSlash, List.dropWhile, h, lstripSlash_eq_dropWhile as]
    · simp [lstripSlash, List.dropWhile, h]

/-- Appending anything after the first occurrence of the separator does
not change `split1`. -/
theorem split1_append_stop (c : Char) : ∀ (xs ys : List Char),
    split1 c (xs ++ c :: ys) = split1 c xs
  | [], _ => by simp [split1]
  | a :: as, ys => by
    by_cases h : a = c
    · simp [split1, h]
    · simp [split1, h, split1_append_stop c as ys]

/-- When the separator does not occur in the front part, `split1`
distributes over the append. -/
theorem split1_append_keep (c : Char) : ∀ (xs ys : List Char), c ∉ xs →
    split1 c (xs ++ ys) = xs ++ split1 c ys
  | [], _, _ => rfl
  | a :: as, ys, h => by
    have ha : ¬(a = c) := fun e => h (e ▸ List.mem_cons_self a as)
    simp [split1, ha, split1_append_keep c as ys (fun hm => h (List.mem_cons_of_mem a hm))]

/-- `translate_path` depends on the request path only through the
query/fragment-stripped string. -/
theorem translate_path_congr (root : FsPath) {p q : List Char}
    (h : split1 '#' (split1 '?' p) = split1 '#' (split1 '?' q)) :
    translate_path root p = translate_path root q := by
  simp only [translate_path]
  rw [h]

/-- A suffix that opens with a character absent from the pattern cannot
help the combined string start with that pattern. -/
theorem startsWithL_append_stop (c : Char) : ∀ (A p r : List Char), c ∉ A →
    startsWithL (p ++ c :: r) A = startsWithL p A
  | [], _, _, _ => by simp [startsWithL]
  | b :: B, [], r, h => by
    have hb : ¬(c = b) := fun e => h (e ▸ List.mem_cons_self b B)
    simp [startsWithL, hb]
  | b :: B, a :: as, r, h => by
    show (decide (a = b) && startsWithL (as ++ c :: r) B) = (decide (a = b) && startsWithL as B)
    rw [startsWithL_append_stop c B as r (fun hm => h (List.mem_cons_of_mem b hm))]

/-- A shared front cancels on both sides of `startsWithL`. -/
theorem startsWithL_append_left {α : Type} [DecidableEq α] : ∀ (xs l1 l2 : List α),
    startsWithL (xs ++ l1) (xs ++ l2) = startsWithL l1 l2
  | [], _, _ => rfl
  | a :: as, l1, l2 => by
    simp [startsWithL, startsWithL_append_left as l1 l2]

/-- A list properly extended past `xs` is never equal to `xs`. -/
theorem append_cons_ne_self {α : Type} (xs : List α) (a : α) (ys : List α) :
    xs ++ a :: ys ≠ xs := by
  intro e
  have h2 := congrArg List.length e
  simp only [List.length_append, List.length_cons] at h2
  omega

/-- The static responder on the literal `/index.html` serves the entry
document's bytes when it exists as a non-directory. -/
theorem staticResponder_index (fs : FS) (root : FsPath)
    (hex : fs.pathExists (root ++ ["index.html".toList]) = true)
    (hnd : fs.isDir (root ++ ["index.html".toList]) = false) :
    staticResponder fs root "/index.html".toList =
      Response.ok (fs.contents (root ++ ["index.html".toList])) := by
  have h : translate_path root "/index.html".toList = root ++ ["index.html".toList] := rfl
  simp only [staticResponder]
  rw [h, hnd, hex]
  rfl

/-- A direct GET of `/index.html` is exactly a delegation to the static
responder on `/index.html`: `/index.html` is not reserved, and both
branches of the router delegate with the same effective path. -/
theorem do_GET_index_self (fs : FS) (root : FsPath) :
    do_GET fs root "/index.html".toList = staticResponder fs root "/index.html".toList := by
  simp only [do_GET]
  have hA : startsWithL "/index.html".toList "/assets/".toList = false := by decide
  have hF : decide ("/index.html".toList = "/favicon.ico".toList) = false := by decide
  rw [hA, hF]
  cases hc : fs.pathExists (translate_path root "/index.html".toList) &&
      !fs.isDir (translate_path root "/index.html".toList)
  · simp
  · simp

/-- A concrete filesystem snapshot for witnesses: `index.html` and
`assets/app.js` exist as files at the root, `docs` exists as a directory,
and nothing else exists (in particular no `favicon.ico`). -/
def fsWit : FS where
  pathExists := fun p =>
    decide (p = ["index.html".toList] ∨ p = ["assets".toList, "app.js".toList] ∨ p = ["docs".toList])
  isDir := fun p => decide (p = ["docs".toList])
  contents := fun p => if p = ["assets".toList, "app.js".toList] then [1, 2, 3] else [72, 73]

/-- Claim C1: a GET whose resolved path is not an existing non-directory
file and whose original path neither starts with `/assets/` nor equals
`/favicon.ico` is rewritten to `/index.html` and delegated to the static
responder, so its response equals a direct request for `/index.html` —
200 with the entry document's bytes when `index.html` exists. -/
theorem spa_fallback_unknown_routes (fs : FS) (root : FsPath) (p : List Char)
    (hmiss : (fs.pathExists (translate_path root p) && !fs.isDir (translate_path root p)) = false)
    (ha : startsWithL p "/assets/".toList = false)
    (hf : p ≠ "/favicon.ico".toList) :
    do_GET fs root p = staticResponder fs root "/index.html".toList ∧
    do_GET fs root p = do_GET fs root "/index.html".toList ∧
    (fs.pathExists (root ++ ["index.html".toList]) = true →
     fs.isDir (root ++ ["index.html".toList]) = false →
     do_GET fs root p = Response.ok (fs.contents (root ++ ["index.html".toList])) ∧
     (do_GET fs root p).status = 200) := by
  have h1 : do_GET fs root p = staticResponder fs root "/index.html".toList := by
    simp only [do_GET]
    rw [hmiss, ha]
    have hF : decide (p = "/favicon.ico".toList) = false := decide_eq_false hf
    rw [hF]
    rfl
  refine ⟨h1, h1.trans (do_GET_index_self fs root).symm, fun hex hnd => ?_⟩
  rw [h1, staticResponder_index fs root hex hnd]
  exact ⟨rfl, rfl⟩

/-- Witness for C1: on `fsWit`, the unknown route `/dashboard` receives the
entry document with status 200. -/
theorem spa_fallback_unknown_routes_witness :
    (fsWit.pathExists (translate_path [] "/dashboard".toList) &&
      !fsWit.isDir (translate_path [] "/dashboard".toList)) = false ∧
    startsWithL "/dashboard".toList "/assets/".toList = false ∧
    "/dashboard".toList ≠ "/favicon.ico".toList ∧
    (do_GET fsWit [] "/dashboard".toList = staticResponder fsWit [] "/index.html".toList ∧
     do_GET fsWit [] "/dashboard".toList = do_GET fsWit [] "/index.html".toList ∧
     (fsWit.pathExists ([] ++ ["index.html".toList]) = true →
      fsWit.isDir ([] ++ ["index.html".toList]) = false →
      do_GET fsWit [] "/dashboard".toList =
        Response.ok (fsWit.contents ([] ++ ["index.html".toList])) ∧
      (do_GET fsWit [] "/dashboard".toList).status = 200)) :=
  ⟨by decide, by decide, by decide,
    spa_fallback_unknown_routes fsWit [] "/dashboard".toList (by decide) (by decide) (by decide)⟩

/-- Claim C2: a GET whose resolved path is not an existing non-directory
file and whose original path starts with `/assets/` or equals
`/favicon.ico` gets a plain HTTP 404 with no body substitution. -/
theorem reserved_missing_returns_404 (fs : FS) (root : FsPath) (p : List Char)
    (hmiss : (fs.pathExists (translate_path root p) && !fs.isDir (translate_path root p)) = false)
    (hres : startsWithL p "/assets/".toList = true ∨ p = "/favicon.ico".toList) :
    do_GET fs root p = Response.notFound ∧ (do_GET fs root p).status = 404 := by
  have h : do_GET fs root p = Response.notFound := by
    simp only [do_GET]
    rw [hmiss]
    rcases hres with h | h
    · rw [h]
      rfl
    · rw [h]
      rfl
  exact ⟨h, by rw [h]; rfl⟩

/-- Witness for C2: on `fsWit`, the missing reserved asset
`/assets/missing.js` gets a 404, not the fallback. -/
theorem reserved_missing_returns_404_witness :
    (fsWit.pathExists (translate_path [] "/assets/missing.js".toList) &&
      !fsWit.isDir (translate_path [] "/assets/missing.js".toList)) = false ∧
    startsWithL "/assets/missing.js".toList "/assets/".toList = true ∧
    (do_GET fsWit [] "/assets/missing.js".toList = Response.notFound ∧
     (do_GET fsWit [] "/assets/missing.js".toList).status = 404) :=
  ⟨by decide, by decide,
    reserved_missing_returns_404 fsWit [] "/assets/missing.js".toList (by decide)
      (Or.inl (by decide))⟩

/-- Claim C3: a GET whose resolved path is an existing non-directory file
is delegated to the static responder with that resolved path and answered
200 with the file's bytes — reserved prefixes included. -/
theorem existing_file_passthrough (fs : FS) (root : FsPath) (p : List Char)
    (hex : fs.pathExists (translate_path root p) = true)
    (hnd : fs.isDir (translate_path root p) = false) :
    do_GET fs root p = Response.ok (fs.contents (translate_path root p)) ∧
    (do_GET fs root p).status = 200 := by
  have h : do_GET fs root p = Response.ok (fs.contents (translate_path root p)) := by
    simp only [do_GET, staticResponder]
    rw [hex, hnd]
    rfl
  exact ⟨h, by rw [h]; rfl⟩

/-- Witness for C3: on `fsWit`, the existing asset `/assets/app.js` is
served as-is with its own bytes. -/
theorem existing_file_passthrough_witness :
    fsWit.pathExists (translate_path [] "/assets/app.js".toList) = true ∧
    fsWit.isDir (translate_path [] "/assets/app.js".toList) = false ∧
    (do_GET fsWit [] "/assets/app.js".toList =
      Response.ok (fsWit.contents (translate_path [] "/assets/app.js".toList)) ∧
     (do_GET fsWit [] "/assets/app.js".toList).status = 200) :=
  ⟨by decide, by decide,
    existing_file_passthrough fsWit [] "/assets/app.js".toList (by decide) (by decide)⟩

/-- Claim C4: `translate_path` strips from the first `?`, then from the
first `#` of the query-stripped string, drops leading `/` characters,
defaults the empty result to `index.html`, and resolves the result
against the server's root — i.e. it agrees with the spec's wording,
transcribed as `translate_path_spec`, on every root and request path. -/
theorem translate_path_matches_spec (root : FsPath) (p : List Char) :
    translate_path root p = translate_path_spec root p := by
  simp only [translate_path, translate_path_spec, split1_eq_takeWhile, lstripSlash_eq_dropWhile]

/-- Claim C5: `translate_path` performs no containment check against the
root: for every root directory `rs ++ [d]`, the request `/../pwned`
contains a `..` segment and resolves to `rs ++ [pwned]`, a location
outside the root whenever `d ≠ pwned`. -/
theorem path_traversal_escape (rs : FsPath) (d : Seg) (h : d ≠ "pwned".toList) :
    "..".toList ∈ splitChar '/' (lstripSlash "/../pwned".toList) ∧
    translate_path (rs ++ [d]) "/../pwned".toList = rs ++ ["pwned".toList] ∧
    startsWithL (translate_path (rs ++ [d]) "/../pwned".toList) (rs ++ [d]) = false := by
  have htr : translate_path (rs ++ [d]) "/../pwned".toList = rs ++ ["pwned".toList] := by
    show resolveSegs (rs ++ [d]) [['.', '.'], "pwned".toList] = rs ++ ["pwned".toList]
    show resolveSegs (rs ++ [d]).dropLast ["pwned".toList] = rs ++ ["pwned".toList]
    rw [List.dropLast_concat]
    rfl
  refine ⟨by decide, htr, ?_⟩
  rw [htr, startsWithL_append_left rs ["pwned".toList] [d]]
  show (decide ("pwned".toList = d) && startsWithL ([] : FsPath) []) = false
  rw [decide_eq_false (Ne.symm h)]
  rfl

/-- Witness for C5: with root `/srv/app`, the request `/../pwned` resolves
to `/srv/pwned`, outside the root. -/
theorem path_traversal_escape_witness :
    "app".toList ≠ "pwned".toList ∧
    ("..".toList ∈ splitChar '/' (lstripSlash "/../pwned".toList) ∧
     translate_path (["srv".toList] ++ ["app".toList]) "/../pwned".toList =
       ["srv".toList] ++ ["pwned".toList] ∧
     startsWithL (translate_path (["srv".toList] ++ ["app".toList]) "/../pwned".toList)
       (["srv".toList] ++ ["app".toList]) = false) :=
  ⟨by decide, path_traversal_escape ["srv".toList] "app".toList (by decide)⟩

/-- Claim C6: appending `?tab=2#section` to a non-reserved path that does
not resolve to an existing non-directory file changes nothing: both
requests take the SPA fallback and get identical responses. -/
theorem query_fragment_insensitive (fs : FS) (root : FsPath) (p : List Char)
    (ha : startsWithL p "/assets/".toList = false)
    (hf : p ≠ "/favicon.ico".toList)
    (hmiss : (fs.pathExists (translate_path root p) && !fs.isDir (translate_path root p)) = false) :
    do_GET fs root (p ++ "?tab=2#section".toList) = do_GET fs root p ∧
    do_GET fs root p = staticResponder fs root "/index.html".toList := by
  have hq : "?tab=2#section".toList = '?' :: "tab=2#section".toList := rfl
  have htr : translate_path root (p ++ "?tab=2#section".toList) = translate_path root p := by
    refine translate_path_congr root ?_
    rw [hq, split1_append_stop]
  have hA : startsWithL (p ++ "?tab=2#section".toList) "/assets/".toList = false := by
    rw [hq, startsWithL_append_stop '?' "/assets/".toList p "tab=2#section".toList (by decide)]
    exact ha
  have hF : p ++ "?tab=2#section".toList ≠ "/favicon.ico".toList := by
    rw [hq]
    intro e
    have hm : '?' ∈ "/favicon.ico".toList := by
      rw [← e]
      exact List.mem_append_right p (List.mem_cons_self '?' _)
    exact absurd hm (by decide)
  have h2 : do_GET fs root p = staticResponder fs root "/index.html".toList := by
    simp only [do_GET]
    rw [hmiss, ha, decide_eq_false hf]
    rfl
  have h1 : do_GET fs root (p ++ "?tab=2#section".toList) =
      staticResponder fs root "/index.html".toList := by
    simp only [do_GET]
    rw [htr, hmiss, hA, decide_eq_false hF]
    rfl
  exact ⟨h1.trans h2.symm, h2⟩

/-- Witness for C6: on `fsWit`, `/dashboard?tab=2#section` and
`/dashboard` route identically into the SPA fallback. -/
theorem query_fragment_insensitive_witness :
    startsWithL "/dashboard".toList "/assets/".toList = false ∧
    "/dashboard".toList ≠ "/favicon.ico".toList ∧
    (fsWit.pathExists (translate_path [] "/dashboard".toList) &&
      !fsWit.isDir (translate_path [] "/dashboard".toList)) = false ∧
    (do_GET fsWit [] ("/dashboard".toList ++ "?tab=2#section".toList) =
      do_GET fsWit [] "/dashboard".toList ∧
     do_GET fsWit [] "/dashboard".toList = staticResponder fsWit [] "/index.html".toList) :=
  ⟨by decide, by decide, by decide,
    query_fragment_insensitive fsWit [] "/dashboard".toList (by decide) (by decide) (by decide)⟩

/-- Claim C7: a GET whose resolved path is an existing directory is
routed exactly like a missing file: the explicit 404 branch when the
original path is reserved, the SPA fallback branch otherwise; the
directory itself is never served. -/
theorem directory_treated_as_missing (fs : FS) (root : FsPath) (p : List Char)
    (hd : fs.isDir (translate_path root p) = true) :
    do_GET fs root p =
      (if startsWithL p "/assets/".toList || decide (p = "/favicon.ico".toList) then
        Response.notFound
      else staticResponder fs root "/index.html".toList) := by
  simp only [do_GET]
  rw [hd]
  cases hp : fs.pathExists (translate_path root p)
  · rfl
  · rfl

/-- Witness for C7: on `fsWit`, the directory `/docs` exists but the
request falls through to the SPA fallback. -/
theorem directory_treated_as_missing_witness :
    fsWit.isDir (translate_path [] "/docs".toList) = true ∧
    do_GET fsWit [] "/docs".toList =
      (if startsWithL "/docs".toList "/assets/".toList ||
          decide ("/docs".toList = "/favicon.ico".toList) then
        Response.notFound
      else staticResponder fsWit [] "/index.html".toList) :=
  ⟨by decide, directory_treated_as_missing fsWit [] "/docs".toList (by decide)⟩

/-- Claim C8: a GET for `/` resolves to the same filesystem location as a
GET for `/index.html` — the empty normalized path is substituted with the
entry document name — and hence produces the identical response on every
filesystem. -/
theorem root_same_as_index (fs : FS) (root : FsPath) :
    translate_path root "/".toList = root ++ ["index.html".toList] ∧
    translate_path root "/".toList = translate_path root "/index.html".toList ∧
    do_GET fs root "/".toList = do_GET fs root "/index.html".toList := by
  refine ⟨rfl, rfl, ?_⟩
  simp only [do_GET]
  have hA1 : startsWithL "/".toList "/assets/".toList = false := by decide
  have hF1 : decide ("/".toList = "/favicon.ico".toList) = false := by decide
  have hA2 : startsWithL "/index.html".toList "/assets/".toList = false := by decide
  have hF2 : decide ("/index.html".toList = "/favicon.ico".toList) = false := by decide
  rw [hA1, hF1, hA2, hF2]
  have htr : translate_path root "/".toList = translate_path root "/index.html".toList := rfl
  rw [htr]
  cases hc : fs.pathExists (translate_path root "/index.html".toList) &&
      !fs.isDir (translate_path root "/index.html".toList)
  · rfl
  · show staticResponder fs root "/".toList = staticResponder fs root "/index.html".toList
    simp only [staticResponder]
    rw [htr]

/-- Claim C9: the handler is deterministic and stateless.  The only
mutable handler state the source touches is `self.path` (overwritten by
`parse_request` for every request and reassigned on line 32): the
response to a request is independent of the state left by any previous
request, replaying a request reproduces the response and the state, and
each response is exactly the pure routing function `do_GET` of the
filesystem snapshot and the request path. -/
theorem handler_stateless_idempotent (fs : FS) (root : FsPath) (s1 s2 p : List Char) :
    (handleOne fs root s1 p).1 = (handleOne fs root s2 p).1 ∧
    handleOne fs root (handleOne fs root s1 p).2 p = handleOne fs root s1 p ∧
    (handleOne fs root s1 p).1 = do_GET fs root p := by
  refine ⟨rfl, rfl, ?_⟩
  simp only [handleOne, do_GET]
  cases hc : fs.pathExists (translate_path root p) && !fs.isDir (translate_path root p)
  · cases hr : startsWithL p "/assets/".toList || decide (p = "/favicon.ico".toList)
    · rfl
    · rfl
  · rfl

/-- Claim C10: the reserved-filename check compares the raw request path
for exact equality with `/favicon.ico`, so `/favicon.ico` followed by any
query (`?...`) or fragment (`#...`) suffix, with the file absent, skips
the 404 branch and receives the SPA fallback — the entry document when
`index.html` exists. -/
theorem favicon_query_bypasses_404 (fs : FS) (root : FsPath) (c : Char) (r : List Char)
    (hc : c = '?' ∨ c = '#')
    (hmiss : (fs.pathExists (root ++ ["favicon.ico".toList]) &&
      !fs.isDir (root ++ ["favicon.ico".toList])) = false) :
    do_GET fs root ("/favicon.ico".toList ++ c :: r) =
      staticResponder fs root "/index.html".toList ∧
    (fs.pathExists (root ++ ["index.html".toList]) = true →
     fs.isDir (root ++ ["index.html".toList]) = false →
     do_GET fs root ("/favicon.ico".toList ++ c :: r) =
       Response.ok (fs.contents (root ++ ["index.html".toList])) ∧
     (do_GET fs root ("/favicon.ico".toList ++ c :: r)).status = 200) := by
  have htr : translate_path root ("/favicon.ico".toList ++ c :: r) =
      root ++ ["favicon.ico".toList] := by
    have hsteps : split1 '#' (split1 '?' ("/favicon.ico".toList ++ c :: r)) =
        split1 '#' (split1 '?' "/favicon.ico".toList) := by
      rcases hc with hc | hc
      · subst hc
        rw [split1_append_stop]
      · subst hc
        rw [split1_append_keep '?' "/favicon.ico".toList ('#' :: r) (by decide)]
        show split1 '#' ("/favicon.ico".toList ++ '#' :: split1 '?' r) =
          split1 '#' (split1 '?' "/favicon.ico".toList)
        rw [split1_append_stop]
        rfl
    exact translate_path_congr root hsteps
  have hA : startsWithL ("/favicon.ico".toList ++ c :: r) "/assets/".toList = false := by
    have hnm : c ∉ "/assets/".toList := by
      rcases hc with hc | hc <;> subst hc <;> decide
    rw [startsWithL_append_stop c "/assets/".toList "/favicon.ico".toList r hnm]
    decide
  have hF : "/favicon.ico".toList ++ c :: r ≠ "/favicon.ico".toList :=
    append_cons_ne_self "/favicon.ico".toList c r
  have h1 : do_GET fs root ("/favicon.ico".toList ++ c :: r) =
      staticResponder fs root "/index.html".toList := by
    simp only [do_GET]
    rw [htr, hmiss, hA, decide_eq_false hF]
    rfl
  refine ⟨h1, fun hex hnd => ?_⟩
  rw [h1, staticResponder_index fs root hex hnd]
  exact ⟨rfl, rfl⟩

/-- Witness for C10: on `fsWit`, where `favicon.ico` is absent and
`index.html` exists, `/favicon.ico?v=2` gets the entry document with
status 200 instead of a 404. -/
theorem favicon_query_bypasses_404_witness :
    ('?' = '?' ∨ '?' = '#') ∧
    (fsWit.pathExists ([] ++ ["favicon.ico".toList]) &&
      !fsWit.isDir ([] ++ ["favicon.ico".toList])) = false ∧
    (do_GET fsWit [] ("/favicon.ico".toList ++ '?' :: "v=2".toList) =
      staticResponder fsWit [] "/index.html".toList ∧
     (fsWit.pathExists ([] ++ ["index.html".toList]) = true →
      fsWit.isDir ([] ++ ["index.html".toList]) = false →
      do_GET fsWit [] ("/favicon.ico".toList ++ '?' :: "v=2".toList) =
        Response.ok (fsWit.contents ([] ++ ["index.html".toList])) ∧
      (do_GET fsWit [] ("/favicon.ico".toList ++ '?' :: "v=2".toList)).status = 200)) :=
  ⟨Or.inl rfl, by decide,
    favicon_query_bypasses_404 fsWit [] '?' "v=2".toList (Or.inl rfl) (by decide)⟩
